import Mathlib

/-!
Verification development for the llms-text-maker extraction pipeline.

This file shallowly embeds the data-extraction core of the repository:
the JSON-LD structured-data extractor, the meta-tag extractor, the
text-content extractor (including its regular-expression patterns), the
merge/reconciliation step, the content-policy filter, the business-type
classifier, the quality scorer, and the low-quality gate of the generate
route.  JavaScript runtime behaviour that the claims depend on (value
truthiness, string coercion, exceptions on property access of undefined)
is modelled explicitly; fallible code returns `Except`.
-/

namespace LlmsTextMaker

/-- A JavaScript/JSON runtime value as it appears in the `jsonLd` array
handed to `extractFromStructuredData`.  `undefv` models JavaScript
`undefined` (absent property), `nullv` models `null`. -/
inductive JValue where
  | undefv
  | nullv
  | bool (b : Bool)
  | num (n : Int)
  | str (s : String)
  | arr (xs : List JValue)
  | obj (fields : List (String × JValue))

/-- JavaScript truthiness of a value: `undefined`, `null`, `false`, `0`
and `""` are falsy; every array and object is truthy. -/
def truthy : JValue → Bool
  | .undefv => false
  | .nullv => false
  | .bool b => b
  | .num n => n != 0
  | .str s => s != ""
  | .arr _ => true
  | .obj _ => true

mutual
/-- JavaScript `String(v)` coercion: numbers print in decimal, arrays
join their elements with "," rendering `null`/`undefined` as empty, and
plain objects render as "[object Object]". -/
def jToString : JValue → String
  | .undefv => "undefined"
  | .nullv => "null"
  | .bool b => if b then "true" else "false"
  | .num n => toString n
  | .str s => s
  | .arr xs => String.intercalate "," (jToStringElems xs)
  | .obj _ => "[object Object]"

/-- Renders array elements for `Array.prototype.join`: `null` and
`undefined` elements render as the empty string. -/
def jToStringElems : List JValue → List String
  | [] => []
  | .undefv :: xs => "" :: jToStringElems xs
  | .nullv :: xs => "" :: jToStringElems xs
  | x :: xs => jToString x :: jToStringElems xs
end

/-- Property access `v[key]` on an object; returns `undefined` when the
key is missing or the value is not an object.  (Access on `undefined` or
`null` itself throws in JavaScript; call sites model that explicitly.) -/
def getField (v : JValue) (key : String) : JValue :=
  match v with
  | .obj fields =>
      match fields.lookup key with
      | some w => w
      | none => .undefv
  | _ => .undefv

/-- `v === s` for a string literal `s` (strict equality). -/
def jIsStr (v : JValue) (s : String) : Bool :=
  match v with
  | .str t => t == s
  | _ => false

/-- Is the value a JavaScript array (`Array.isArray`)? -/
def jIsArr : JValue → Bool
  | .arr _ => true
  | _ => false

/-- The string stored for a truthy value, coercing as JavaScript does at
the value's use sites (template literals, joins, comparisons).  The
source keeps the raw value and coerces later; coercing at extraction
time agrees on every string-valued field. -/
def truthyStr (v : JValue) : Option String :=
  if truthy v then some (jToString v) else none

/-- `v` is `undefined` or `null`, i.e. property access on it throws. -/
def jIsNullish : JValue → Bool
  | .undefv => true
  | .nullv => true
  | _ => false

/-! ## A miniature regular-expression engine

The text extractor and the meta-tag name cleaner use JavaScript regular
expressions.  Every pattern in the source applies `*`/`+`/`{n,}` only to
single-character classes, so the engine below supports exactly: a
character class, sequencing, ordered alternation, the empty pattern, a
greedy star over a character class, and the end-of-input anchor.  The
continuation-passing matcher implements the backtracking preference
order of a JavaScript engine (greedy, leftmost alternative first). -/

/-- Regular expressions as used by the source patterns. -/
inductive RE where
  | cls (p : Char → Bool)
  | seq (a b : RE)
  | alt (a b : RE)
  | eps
  | starCls (p : Char → Bool)
  | eos

/-- Helper for a greedy `p*`: try consuming `n` characters first, then
backtrack to shorter runs down to zero. -/
def tryDrops {α : Type} (k : List Char → Option α) (cs : List Char) : Nat → Option α
  | 0 => k cs
  | n + 1 =>
      match k (cs.drop (n + 1)) with
      | some r => some r
      | none => tryDrops k cs n

/-- Backtracking matcher: `reMatch r cs k` attempts to match `r` at the
head of `cs` and calls the continuation `k` on the remaining input,
exploring alternatives in JavaScript preference order. -/
def reMatch {α : Type} : RE → List Char → (List Char → Option α) → Option α
  | .cls p, cs, k =>
      match cs with
      | [] => none
      | c :: rest => if p c then k rest else none
  | .seq a b, cs, k => reMatch a cs (fun rest => reMatch b rest k)
  | .alt a b, cs, k =>
      match reMatch a cs k with
      | some r => some r
      | none => reMatch b cs k
  | .eps, cs, k => k cs
  | .starCls p, cs, k => tryDrops k cs (cs.takeWhile p).length
  | .eos, cs, k =>
      match cs with
      | [] => k []
      | _ :: _ => none

/-- `r?` (greedy option). -/
def REopt (r : RE) : RE := .alt r .eps

/-- A single literal character. -/
def REchr (c : Char) : RE := .cls (fun d => d == c)

/-- `p+` (greedy). -/
def REplus (p : Char → Bool) : RE := .seq (.cls p) (.starCls p)

/-- A case-insensitive literal string, as under the `/i` flag. -/
def RElitCI (s : String) : RE :=
  s.toList.foldr (fun c acc => RE.seq (.cls (fun d => d.toLower == c.toLower)) acc) .eps

/-- Match `r` at the start of `cs`; on success return the pair of the
consumed prefix and the remaining suffix. -/
def matchPrefix (r : RE) (cs : List Char) : Option (List Char × List Char) :=
  reMatch r cs (fun rest => some (cs.take (cs.length - rest.length), rest))

/-- Leftmost search: try a match attempt at each position from the left,
like an unanchored JavaScript regex.  Returns the attempt's result
together with the characters skipped before the match position. -/
def searchFrom {α : Type} (attempt : List Char → Option α) : List Char → Option (List Char × α)
  | [] =>
      match attempt [] with
      | some r => some ([], r)
      | none => none
  | c :: rest =>
      match attempt (c :: rest) with
      | some r => some ([], r)
      | none =>
          match searchFrom attempt rest with
          | some (skipped, r) => some (c :: skipped, r)
          | none => none

/-- All non-overlapping matches, scanning left to right as a `/g` regex
does; `fuel` bounds the number of scanning steps (callers pass the input
length, which suffices because every step consumes at least one
character). -/
def scanAllAux (r : RE) : Nat → List Char → List String
  | 0, _ => []
  | _ + 1, [] => []
  | fuel + 1, c :: rest =>
      match matchPrefix r (c :: rest) with
      | some (m, remaining) =>
          if m.isEmpty then scanAllAux r fuel rest
          else String.mk m :: scanAllAux r fuel remaining
      | none => scanAllAux r fuel rest

/-- All matches of `r` in `s` (the semantics of `s.match(r)` with the
global flag, restricted to whole-match strings). -/
def scanAll (r : RE) (s : String) : List String :=
  scanAllAux r (s.toList.length + 1) s.toList

/-- Boolean prefix test on character lists. -/
def charsPrefixOf : List Char → List Char → Bool
  | [], _ => true
  | _ :: _, [] => false
  | a :: as, b :: bs => a == b && charsPrefixOf as bs

/-- `s.toLowerCase()`, character-wise (ASCII case mapping, which agrees
with JavaScript on all ASCII input; every constant compared against is
ASCII). -/
def jsToLower (s : String) : String :=
  String.mk (s.toList.map Char.toLower)

/-- `s.trim()`: strip leading and trailing whitespace. -/
def jsTrim (s : String) : String :=
  String.mk (((s.toList.dropWhile Char.isWhitespace).reverse.dropWhile
    Char.isWhitespace).reverse)

/-- Helper for `jsSplit`, accumulating the current piece reversed. -/
def jsSplitAux (p : Char → Bool) : List Char → List Char → List String
  | [], acc => [String.mk acc.reverse]
  | c :: cs, acc =>
      if p c then String.mk acc.reverse :: jsSplitAux p cs []
      else jsSplitAux p cs (c :: acc)

/-- `s.split(sep)` for a single-character separator class: JavaScript
yields the (possibly empty) pieces between separator occurrences, and
`[""]` on the empty string. -/
def jsSplit (s : String) (p : Char → Bool) : List String :=
  jsSplitAux p s.toList []

/-- Case-sensitive substring containment, the semantics of JavaScript
`hay.includes(needle)`. -/
def strContainsSub (hay needle : String) : Bool :=
  hay.toList.tails.any (fun t => charsPrefixOf needle.toList t)

/-! ## Constants (src/utils/constants.ts) -/

/-- `EXCLUDED_CONTENT`: content that should never be included in
LLMS.txt. -/
def EXCLUDED_CONTENT : List String :=
  ["pricing", "price", "cost", "fee", "payment", "credit card",
   "api key", "password", "secret", "private", "confidential"]

/-- `BUSINESS_TYPE_KEYWORDS.catalog`. -/
def catalogKeywords : List String :=
  ["marketplace", "platform", "directory", "listing", "catalog", "database"]

/-- `BUSINESS_TYPE_KEYWORDS.specialist`. -/
def specialistKeywords : List String :=
  ["agency", "consultant", "expert", "specialist", "professional", "service"]

/-- `BUSINESS_TYPE_KEYWORDS.ecosystem`. -/
def ecosystemKeywords : List String :=
  ["suite", "ecosystem", "integrated", "all-in-one", "complete solution"]

/-- Character class `[a-zA-Z0-9._%+-]` of the local part of
`REGEX_PATTERNS.EMAIL`. -/
def emailLocalChar (c : Char) : Bool :=
  (('a' ≤ c && c ≤ 'z') || ('A' ≤ c && c ≤ 'Z') || ('0' ≤ c && c ≤ '9')
    || c == '.' || c == '_' || c == '%' || c == '+' || c == '-')

/-- Character class `[a-zA-Z0-9.-]` of the domain part of
`REGEX_PATTERNS.EMAIL`. -/
def emailDomainChar (c : Char) : Bool :=
  (('a' ≤ c && c ≤ 'z') || ('A' ≤ c && c ≤ 'Z') || ('0' ≤ c && c ≤ '9')
    || c == '.' || c == '-')

/-- Character class `[a-zA-Z]`. -/
def asciiLetter (c : Char) : Bool :=
  (('a' ≤ c && c ≤ 'z') || ('A' ≤ c && c ≤ 'Z'))

/-- Character class `[0-9]`. -/
def asciiDigit (c : Char) : Bool := ('0' ≤ c && c ≤ '9')

/-- JavaScript `\s` (whitespace class), approximated by Unicode
whitespace, which agrees on all ASCII inputs. -/
def wsChar (c : Char) : Bool := c.isWhitespace

/-- `REGEX_PATTERNS.EMAIL`:
`[a-zA-Z0-9._%+-]+@[a-zA-Z0-9.-]+\.[a-zA-Z]{2,}`. -/
def emailRE : RE :=
  .seq (REplus emailLocalChar) <| .seq (REchr '@') <|
    .seq (REplus emailDomainChar) <| .seq (REchr '.') <|
      .seq (.cls asciiLetter) (REplus asciiLetter)

/-- Character class `[-.\s]` used as separator in
`REGEX_PATTERNS.PHONE`. -/
def phoneSep (c : Char) : Bool := c == '-' || c == '.' || wsChar c

/-- `[0-9]{3}`. -/
def threeDigits : RE := .seq (.cls asciiDigit) (.seq (.cls asciiDigit) (.cls asciiDigit))

/-- `REGEX_PATTERNS.PHONE`:
`(\+?1[-.\s]?)?\(?([0-9]{3})\)?[-.\s]?([0-9]{3})[-.\s]?([0-9]{4})`. -/
def phoneRE : RE :=
  .seq (REopt (.seq (REopt (REchr '+')) (.seq (REchr '1') (REopt (.cls phoneSep))))) <|
    .seq (REopt (REchr '(')) <| .seq threeDigits <| .seq (REopt (REchr ')')) <|
      .seq (REopt (.cls phoneSep)) <| .seq threeDigits <|
        .seq (REopt (.cls phoneSep)) <|
          .seq (.cls asciiDigit) threeDigits

/-- The trigger-plus-separator prefix of the services pattern
`/(?:services|what we do|our solutions)[:\s]+([^.]+\.)/i`, i.e.
everything before the capture group. -/
def servicesTriggerRE : RE :=
  .seq (.alt (RElitCI "services") (.alt (RElitCI "what we do") (RElitCI "our solutions")))
    (REplus (fun c => c == ':' || wsChar c))

/-- The trigger-plus-separator prefix of the mission pattern
`/(?:our mission|mission statement)[:\s]+([^.]+\.)/i`. -/
def missionTriggerRE : RE :=
  .seq (.alt (RElitCI "our mission") (RElitCI "mission statement"))
    (REplus (fun c => c == ':' || wsChar c))

/-- The capture group `([^.]+\.)` shared by the services and mission
patterns. -/
def sentenceCaptureRE : RE :=
  .seq (REplus (fun c => c != '.')) (REchr '.')

/-- The API-documentation pattern
`/href="([^"]*(?:api|developer|docs)[^"]*)"[^>]*>([^<]+)</gi` (only its
presence is used by the source). -/
def apiHrefRE : RE :=
  .seq (RElitCI "href=") <| .seq (REchr '"') <|
    .seq (.starCls (fun c => c != '"')) <|
      .seq (.alt (RElitCI "api") (.alt (RElitCI "developer") (RElitCI "docs"))) <|
        .seq (.starCls (fun c => c != '"')) <| .seq (REchr '"') <|
          .seq (.starCls (fun c => c != '>')) <| .seq (REchr '>') <|
            .seq (REplus (fun c => c != '<')) (REchr '<')

/-- Search a string for a trigger regex (the part of a pattern before
its capture group) followed by a capture regex, leftmost match first,
and return the text matched by the capture group — the semantics of
`text.match(pattern)[1]` for the source's services/mission patterns,
including backtracking across the group boundary. -/
def searchCapture (trigger cap : RE) (s : String) : Option String :=
  let attempt := fun (cs : List Char) =>
    reMatch trigger cs (fun rest =>
      reMatch cap rest (fun rest2 =>
        some (String.mk (rest.take (rest.length - rest2.length)))))
  (searchFrom attempt s.toList).map (·.2)

/-- Whether an unanchored regex matches anywhere in the string
(`s.match(r) !== null`, match data unused). -/
def reTest (r : RE) (s : String) : Bool :=
  (searchFrom (matchPrefix r) s.toList).isSome

/-- First whole-match of an unanchored regex in a string: the semantics
of `s.match(r)[0]` for the source's phone pattern. -/
def firstMatchStr (r : RE) (s : String) : Option String :=
  (searchFrom (matchPrefix r) s.toList).map (fun p => String.mk p.2.1)

/-- Replace the leftmost match of `r` in `s` by the empty string —
`s.replace(r, '')` for the cleaner patterns. -/
def replaceFirst (r : RE) (s : String) : String :=
  match searchFrom (matchPrefix r) s.toList with
  | some (skipped, (_, remaining)) => String.mk (skipped ++ remaining)
  | none => s

/-! ## Data model (types.ts) -/

/-- The closed archetype set `'catalog' | 'specialist' | 'ecosystem'`. -/
inductive BusinessType where
  | catalog
  | specialist
  | ecosystem
deriving DecidableEq

/-- The nested `contactInfo` record of `ExtractedData`; a `none` models
a TypeScript optional property left undefined. -/
structure ContactInfo where
  email : Option String := none
  phone : Option String := none
  address : Option String := none
  socialMedia : Option (List (String × String)) := none
deriving DecidableEq

/-- A `Partial<ExtractedData>` as produced by the three source
extractors: every field optional.  A source extractor that initialises
an array or record field sets it to `some []` / `some {}`. -/
structure PartialData where
  companyName : Option String := none
  tagline : Option String := none
  description : Option String := none
  services : Option (List String) := none
  products : Option (List String) := none
  contactInfo : Option ContactInfo := none
  mission : Option String := none
  teamInfo : Option (List String) := none
  apiDocs : Option String := none
  schemaData : Option (List JValue) := none

/-- The `ExtractedData` interface: the merged business profile. -/
structure ExtractedData where
  companyName : Option String := none
  tagline : Option String := none
  description : Option String := none
  services : List String := []
  products : List String := []
  contactInfo : ContactInfo := {}
  mission : Option String := none
  teamInfo : List String := []
  apiDocs : Option String := none
  schemaData : Option (List JValue) := none
  businessType : Option BusinessType := none

/-- The `ScrapedContent` bundle handed to `extractData` by the
retrieval layer. -/
structure ScrapedContent where
  html : String
  textContent : String
  metaTags : List (String × String)
  jsonLd : List JValue
  finalUrl : String

/-- JavaScript `a || b` on optional strings: keep `a` when present,
else `b`. -/
def jsOr (a b : Option String) : Option String :=
  match a with
  | some v => some v
  | none => b

/-! ## Helper functions (lib/extractor.ts) -/

/-- `containsExcludedContent`: case-insensitive substring test against
the `EXCLUDED_CONTENT` denylist. -/
def containsExcludedContent (text : String) : Bool :=
  EXCLUDED_CONTENT.any (fun excluded => strContainsSub (jsToLower text) excluded)

/-- The `platforms` table of `identifySocialPlatform`, in object-literal
insertion order. -/
def socialPlatforms : List (String × String) :=
  [("facebook.com", "facebook"), ("twitter.com", "twitter"), ("x.com", "twitter"),
   ("linkedin.com", "linkedin"), ("instagram.com", "instagram"),
   ("youtube.com", "youtube"), ("github.com", "github")]

/-- `identifySocialPlatform`: walk the platform table in order and
return the platform of the first domain contained in the URL string. -/
def identifySocialPlatform (url : String) : Option String :=
  walkPlatforms socialPlatforms
where
  walkPlatforms : List (String × String) → Option String
    | [] => none
    | (domain, platform) :: rest =>
        if strContainsSub url domain then some platform else walkPlatforms rest

/-- `formatAddress`: join the truthy address sub-fields with ", ",
in the order street, locality, region, postal code, country. -/
def formatAddress (address : JValue) : String :=
  let parts := [getField address "streetAddress", getField address "addressLocality",
                getField address "addressRegion", getField address "postalCode",
                getField address "addressCountry"]
  String.intercalate ", " (parts.filterMap truthyStr)

/-- `.` of a JavaScript regex without the `s` flag: any character that
is not a line terminator. -/
def notLineTerm (c : Char) : Bool :=
  !(c == '\n' || c == '\r' || c.toNat == 0x2028 || c.toNat == 0x2029)

/-- The pattern `/\s*[-|]\s*.*$/` of `cleanCompanyName` (drop everything
from a dash or pipe separator to the end). -/
def dashPipeTailRE : RE :=
  .seq (.starCls wsChar) <| .seq (.cls (fun c => c == '-' || c == '|')) <|
    .seq (.starCls wsChar) <| .seq (.starCls notLineTerm) .eos

/-- The pattern `/\s+(Inc|LLC|Ltd|Corporation|Corp)\.?$/i` of
`cleanCompanyName` (strip a trailing legal-entity suffix). -/
def legalSuffixRE : RE :=
  .seq (REplus wsChar) <|
    .seq (.alt (RElitCI "Inc") (.alt (RElitCI "LLC") (.alt (RElitCI "Ltd")
          (.alt (RElitCI "Corporation") (RElitCI "Corp"))))) <|
      .seq (REopt (REchr '.')) .eos

/-- `cleanCompanyName`: apply the two replacements, then trim. -/
def cleanCompanyName (name : String) : String :=
  jsTrim (replaceFirst legalSuffixRE (replaceFirst dashPipeTailRE name))

/-! ## StructuredSourceExtractor (`extractFromStructuredData`) -/

/-- Mutable state of the `extracted` object while the structured-data
extractor walks the record list. -/
structure SDState where
  companyName : Option String := none
  description : Option String := none
  tagline : Option String := none
  ci : ContactInfo := {}
  services : List String := []
  products : List String := []
  teamInfo : List String := []

/-- Assignment `map[k] = v` on a JavaScript object rendered as an
association list: an existing key keeps its position and gets the new
value, a fresh key is appended. -/
def updateAssoc (l : List (String × String)) (k v : String) : List (String × String) :=
  if l.any (fun p => p.1 == k) then
    l.map (fun p => if p.1 == k then (k, v) else p)
  else l ++ [(k, v)]

/-- One `sameAs` URL: a string is matched through
`identifySocialPlatform`; an array has `Array.prototype.includes`, so
`url.includes(domain)` is an element-equality search; any other value
lacks `.includes` and throws. -/
def addSameAsUrl (acc : List (String × String)) (url : JValue) :
    Except String (List (String × String)) :=
  match url with
  | .str s =>
      match identifySocialPlatform s with
      | some platform => .ok (updateAssoc acc platform s)
      | none => .ok acc
  | .arr xs =>
      match socialPlatforms.find? (fun e => xs.any (fun x => jIsStr x e.1)) with
      | some e => .ok (updateAssoc acc e.2 (jToString (JValue.arr xs)))
      | none => .ok acc
  | _ => .error "TypeError: url.includes is not a function"

/-- Spread `...(v || [])`: falsy values give the empty list, arrays
spread to their elements, strings are iterable and spread to their
characters, and any other truthy value is not iterable and throws. -/
def spreadOrEmpty (v : JValue) : Except String (List JValue) :=
  if !truthy v then .ok []
  else
    match v with
    | .arr xs => .ok xs
    | .str s => .ok (s.toList.map (fun c => .str (String.mk [c])))
    | _ => .error "TypeError: value is not iterable"

/-- Contribution of one product/service candidate: a falsy `name`
contributes nothing; a truthy string is kept unless denylisted; a
truthy non-string reaches `containsExcludedContent`, whose
`.toLowerCase()` call throws. -/
def namedItemContribution (item : JValue) : Except String (Option String) :=
  let nameV := if jIsNullish item then JValue.undefv else getField item "name"
  if truthy nameV then
    match nameV with
    | .str s => if !containsExcludedContent s then .ok (some s) else .ok none
    | _ => .error "TypeError: text.toLowerCase is not a function"
  else .ok none

/-- Processing of a single JSON-LD record, updating the extractor
state; an exception anywhere aborts the whole extractor, as in the
source (which has no try/catch around the `forEach`). -/
def extractOneRecord (st : SDState) (j : JValue) : Except String SDState := do
  if jIsNullish j then
    throw "TypeError: cannot read properties of a nullish record"
  let type := getField j "@type"
  -- Organization-like records: name, description, tagline, contact, address, sameAs
  let st ←
    if jIsStr type "Organization" || jIsStr type "Corporation" || jIsStr type "LocalBusiness" then do
      let st := { st with
        companyName := jsOr (truthyStr (getField j "name")) st.companyName,
        description := jsOr (truthyStr (getField j "description")) st.description,
        tagline := jsOr (truthyStr (getField j "slogan")) st.tagline }
      let cp := getField j "contactPoint"
      let st ←
        if truthy cp then do
          let contact :=
            match cp with
            | .arr xs => xs.headD .undefv
            | other => other
          if jIsNullish contact then
            throw "TypeError: cannot read properties of undefined (reading email)"
          else
            pure { st with ci := { st.ci with
              email := jsOr (truthyStr (getField contact "email")) st.ci.email,
              phone := jsOr (truthyStr (getField contact "telephone")) st.ci.phone } }
        else pure st
      let st :=
        if truthy (getField j "address") then
          { st with ci := { st.ci with address := some (formatAddress (getField j "address")) } }
        else st
      let st ←
        match getField j "sameAs" with
        | .arr urls => do
            let social ← urls.foldlM addSameAsUrl []
            pure { st with ci := { st.ci with socialMedia := some social } }
        | _ => pure st
      pure st
    else pure st
  -- Product / offer-bearing records
  let st ←
    if jIsStr type "Product" || truthy (getField j "makesOffer") then do
      let offers :=
        match getField j "makesOffer" with
        | .arr xs => xs
        | other => [other]
      offers.foldlM (fun st p => do
        match ← namedItemContribution p with
        | some s => pure { st with products := st.products ++ [s] }
        | none => pure st) st
    else pure st
  -- Service-catalog-bearing records
  let st ←
    if jIsStr type "Service" || truthy (getField j "hasOfferCatalog") then do
      let cat := getField j "hasOfferCatalog"
      let items := if jIsNullish cat then JValue.undefv else getField cat "itemListElement"
      let itemsOrEmpty := if truthy items then items else JValue.arr []
      match itemsOrEmpty with
      | .arr xs =>
          xs.foldlM (fun st sv => do
            match ← namedItemContribution sv with
            | some s => pure { st with services := st.services ++ [s] }
            | none => pure st) st
      | _ => throw "TypeError: services.forEach is not a function"
    else pure st
  -- Employee / founder lists
  if truthy (getField j "employee") || truthy (getField j "founder") then do
    let employees ← spreadOrEmpty (getField j "employee")
    let founders ← spreadOrEmpty (getField j "founder")
    (employees ++ founders).foldlM (fun st person => do
      let nameV := if jIsNullish person then JValue.undefv else getField person "name"
      if truthy nameV then
        let roleV :=
          if truthy (getField person "jobTitle") then getField person "jobTitle"
          else if truthy (getField person "role") then getField person "role"
          else .str "Team Member"
        pure { st with teamInfo := st.teamInfo ++ [jToString nameV ++ " - " ++ jToString roleV] }
      else pure st) st
  else pure st

/-- `extractFromStructuredData`: fold the record list through
`extractOneRecord` and package the extractor state as a partial
profile, retaining the raw record list as `schemaData`. -/
def extractFromStructuredData (jsonLdArray : List JValue) : Except String PartialData := do
  let st ← jsonLdArray.foldlM extractOneRecord {}
  pure { companyName := st.companyName, description := st.description, tagline := st.tagline,
         services := some st.services, products := some st.products,
         contactInfo := some st.ci, teamInfo := some st.teamInfo,
         schemaData := some jsonLdArray }

/-! ## MetaSourceExtractor (`extractFromMetaTags`) -/

/-- First key in `keys` whose meta-tag value is truthy (present and
non-empty), returning that value. -/
def lookupTruthyTag (metaTags : List (String × String)) (keys : List String) : Option String :=
  keys.findSome? (fun k =>
    match metaTags.lookup k with
    | some v => if v == "" then none else some v
    | none => none)

/-- `extractFromMetaTags`: description from the description-key synonym
list, company name from the title-key synonym list run through
`cleanCompanyName`, tagline from `twitter:title` when it differs from
the resolved company name. -/
def extractFromMetaTags (metaTags : List (String × String)) : PartialData :=
  let description := lookupTruthyTag metaTags
    ["description", "og:description", "twitter:description"]
  let companyName := (lookupTruthyTag metaTags
    ["og:site_name", "application-name", "title", "og:title"]).map cleanCompanyName
  let tagline :=
    match metaTags.lookup "twitter:title" with
    | some t => if t != "" && some t ≠ companyName then some t else none
    | none => none
  { description := description, companyName := companyName, tagline := tagline,
    services := some [], products := some [], contactInfo := some {} }

/-! ## TextSourceExtractor (`extractFromContent`) -/

/-- All email-shaped tokens of the text
(`textContent.match(REGEX_PATTERNS.EMAIL)`). -/
def emailMatches (textContent : String) : List String :=
  scanAll emailRE textContent

/-- The filter applied to matched emails: drop consumer-webmail
addresses and keep only addresses containing one of contact / info /
support / sales — note: tested against the whole address string. -/
def emailFilterKeep (email : String) : Bool :=
  !(strContainsSub email "@gmail.") && !(strContainsSub email "@yahoo.") &&
    !(strContainsSub email "@hotmail.") &&
    (strContainsSub email "contact" || strContainsSub email "info" ||
     strContainsSub email "support" || strContainsSub email "sales")

/-- `extractFromContent`: pattern-matching extraction from visible text
and raw markup. -/
def extractFromContent (textContent html : String) : PartialData :=
  let contactEmails := (emailMatches textContent).filter emailFilterKeep
  let servicesFound := (searchCapture servicesTriggerRE sentenceCaptureRE textContent).map
    (fun cap => ((jsSplit cap (fun c => c == ',' || c == ';')).map jsTrim).filter
      (fun s => !containsExcludedContent s))
  { services := some (servicesFound.getD []),
    products := some [],
    contactInfo := some { email := contactEmails.head?,
                          phone := firstMatchStr phoneRE textContent },
    mission := (searchCapture missionTriggerRE sentenceCaptureRE textContent).map jsTrim,
    teamInfo := some [],
    apiDocs := if reTest apiHrefRE html then some "API documentation available" else none }

/-! ## Reconciler (`mergeExtractedData`) -/

/-- Stable first-occurrence deduplication with an accumulator of
already-seen values: the semantics of `[...new Set(list)]`. -/
def dedupFirstAux (seen : List String) : List String → List String
  | [] => []
  | x :: xs =>
      if seen.contains x then dedupFirstAux seen xs
      else x :: dedupFirstAux (x :: seen) xs

/-- `[...new Set(l)]`: keep the first occurrence of each value, in
order. -/
def dedupFirst (l : List String) : List String :=
  dedupFirstAux [] l

/-- Merge of one array-valued field: a defined source array is
concatenated onto the accumulator and deduplicated
(`[...new Set([...existing, ...value])]`); an absent field leaves the
accumulator unchanged. -/
def mergeArrayField (merged : List String) (src : Option (List String)) : List String :=
  match src with
  | some v => dedupFirst (merged ++ v)
  | none => merged

/-- Merge of the `contactInfo` record field: a defined source record is
shallow-merged by spread (`{...merged, ...value}`), so a key present in
the later source overwrites; an absent record leaves the accumulator
unchanged. -/
def mergeContactField (merged : ContactInfo) (src : Option ContactInfo) : ContactInfo :=
  match src with
  | some ci =>
      { email := jsOr ci.email merged.email,
        phone := jsOr ci.phone merged.phone,
        address := jsOr ci.address merged.address,
        socialMedia :=
          match ci.socialMedia with
          | some m => some m
          | none => merged.socialMedia }
  | none => merged

/-- One iteration of the merge loop: every defined field of the later
`source` is folded into `merged` — arrays by dedup-concatenation,
records by shallow spread, and scalars by direct assignment, so for
scalar fields a later source in the argument list OVERWRITES an earlier
one.  `schemaData` (supplied only by the structured source) hits the
direct-assignment branch because the accumulator starts without it. -/
def mergeStep (merged : ExtractedData) (source : PartialData) : ExtractedData :=
  { companyName := jsOr source.companyName merged.companyName,
    tagline := jsOr source.tagline merged.tagline,
    description := jsOr source.description merged.description,
    services := mergeArrayField merged.services source.services,
    products := mergeArrayField merged.products source.products,
    contactInfo := mergeContactField merged.contactInfo source.contactInfo,
    mission := jsOr source.mission merged.mission,
    teamInfo := mergeArrayField merged.teamInfo source.teamInfo,
    apiDocs := jsOr source.apiDocs merged.apiDocs,
    schemaData :=
      match source.schemaData with
      | some v => some v
      | none => merged.schemaData,
    businessType := merged.businessType }

/-- `mergeExtractedData(...dataSources)`: fold the sources, in the
order given, into an initially-empty profile, later sources
overwriting earlier ones.  `extractData` passes the sources in the
order structured, meta, content. -/
def mergeExtractedData (dataSources : List PartialData) : ExtractedData :=
  dataSources.foldl mergeStep {}

/-! ## Classifier (`classifyBusinessType`) -/

/-- The lowercase concatenation of company name, description, tagline
and every service and product string, joined by single spaces
(`undefined` renders as the empty string under `Array.join`). -/
def classifierText (data : ExtractedData) : String :=
  let joined := (String.intercalate " "
    ([data.companyName.getD "", data.description.getD "", data.tagline.getD ""]
      ++ data.services ++ data.products))
  jsToLower joined

/-- Keyword score of one archetype: how many of its keywords occur as
substrings of the text; each keyword counts at most once. -/
def countKeywords (keywords : List String) (allText : String) : Nat :=
  (keywords.filter (fun keyword => strContainsSub allText keyword)).length

/-- The catalog keyword score of a profile. -/
def catalogScoreOf (data : ExtractedData) : Nat :=
  countKeywords catalogKeywords (classifierText data)

/-- The specialist keyword score of a profile. -/
def specialistScoreOf (data : ExtractedData) : Nat :=
  countKeywords specialistKeywords (classifierText data)

/-- The ecosystem keyword score of a profile. -/
def ecosystemScoreOf (data : ExtractedData) : Nat :=
  countKeywords ecosystemKeywords (classifierText data)

/-- `classifyBusinessType`: keyword scoring with the source's branch
structure — catalog when its score is at least both others, else
ecosystem when its score is at least the specialist score, else
specialist. -/
def classifyBusinessType (data : ExtractedData) : BusinessType :=
  let catalogScore := catalogScoreOf data
  let specialistScore := specialistScoreOf data
  let ecosystemScore := ecosystemScoreOf data
  if catalogScore ≥ specialistScore ∧ catalogScore ≥ ecosystemScore then .catalog
  else if ecosystemScore ≥ specialistScore then .ecosystem
  else .specialist

/-! ## PolicyFilter at merge time (`cleanExtractedData`) -/

/-- `cleanExtractedData`: deduplicate services/products and drop empty
strings, drop denylisted services/products, clean team info, and
default the company name and description to their placeholder
strings when falsy (absent or empty). -/
def cleanExtractedData (data : ExtractedData) : ExtractedData :=
  let services := ((dedupFirst data.services).filter (fun s => s != "")).filter
    (fun s => !containsExcludedContent s)
  let products := ((dedupFirst data.products).filter (fun p => p != "")).filter
    (fun p => !containsExcludedContent p)
  let teamInfo := (dedupFirst data.teamInfo).filter (fun t => t != "")
  { data with
    services := services, products := products, teamInfo := teamInfo,
    companyName :=
      match data.companyName with
      | some s => if s == "" then some "Company Name" else some s
      | none => some "Company Name",
    description :=
      match data.description with
      | some s => if s == "" then some "No description available." else some s
      | none => some "No description available." }

/-! ## The pipeline (`extractData`) -/

/-- `extractData`: run the three extractors, merge in the order
structured, meta, content, classify, then clean.  A JavaScript
exception inside the structured-data extractor propagates (the source
has no try/catch), modelled by `Except`. -/
def extractData (scrapedContent : ScrapedContent) : Except String ExtractedData := do
  let structuredData ← extractFromStructuredData scrapedContent.jsonLd
  let metaData := extractFromMetaTags scrapedContent.metaTags
  let contentData := extractFromContent scrapedContent.textContent scrapedContent.html
  let mergedData := mergeExtractedData [structuredData, metaData, contentData]
  let withType := { mergedData with businessType := some (classifyBusinessType mergedData) }
  pure (cleanExtractedData withType)

/-! ## QualityScorer (`calculateQualityScore`, app/api/extract/route.ts) -/

/-- JavaScript truthiness of an optional string field. -/
def truthyOpt (o : Option String) : Bool :=
  match o with
  | some s => s != ""
  | none => false

/-- `data.contactInfo.socialMedia && Object.keys(...).length > 0`. -/
def hasSocialMedia (data : ExtractedData) : Bool :=
  match data.contactInfo.socialMedia with
  | some m => decide (m.length > 0)
  | none => false

/-- `data.schemaData && data.schemaData.length > 0`. -/
def hasSchemaData (data : ExtractedData) : Bool :=
  match data.schemaData with
  | some l => decide (l.length > 0)
  | none => false

/-- `calculateQualityScore`: additive completeness score, capped at
100, mirroring the source's sequence of `score +=` statements. -/
def calculateQualityScore (data : ExtractedData) : Nat :=
  let score := 0
  let score := score +
    (if truthyOpt data.companyName && data.companyName != some "Company Name" then 10 else 0)
  let score := score +
    (if truthyOpt data.description && data.description != some "No description available."
     then 10 else 0)
  let score := score + (if data.services.length > 0 then min 10 (data.services.length * 2) else 0)
  let score := score + (if data.products.length > 0 then min 10 (data.products.length * 2) else 0)
  let score := score + (if truthyOpt data.contactInfo.email then 10 else 0)
  let score := score + (if truthyOpt data.contactInfo.phone then 5 else 0)
  let score := score + (if truthyOpt data.contactInfo.address then 5 else 0)
  let score := score + (if truthyOpt data.mission then 5 else 0)
  let score := score + (if data.teamInfo.length > 0 then 5 else 0)
  let score := score + (if truthyOpt data.apiDocs then 5 else 0)
  let score := score + (if hasSocialMedia data then 5 else 0)
  let score := score + (if hasSchemaData data then 20 else 0)
  min score 100

/-! ## The generate route's quality gate (app/api/generate POST) -/

/-- Outcome of the request-vetting prefix of the generate route's POST
handler, up to the point where the external generation step would be
invoked. -/
inductive GenerateStep where
  | rejectedInsufficientData
  | rejectedMissingApiKey
  | invokedGeneration
deriving DecidableEq

/-- The guard `qualityScore && qualityScore < 20`: under JavaScript
truthiness a score of 0 (and an absent score) fails the first conjunct,
so the guard does not fire for it.  Quality scores produced by
`calculateQualityScore` are naturals. -/
def lowQualityGateTriggers (qualityScore : Option Nat) : Bool :=
  match qualityScore with
  | some q => q != 0 && decide (q < 20)
  | none => false

/-- The generate POST handler's decision sequence: reject on the
low-quality guard, then reject when the API key is missing, otherwise
invoke the external generation step. -/
def generatePostGate (hasApiKey : Bool) (qualityScore : Option Nat) : GenerateStep :=
  if lowQualityGateTriggers qualityScore then .rejectedInsufficientData
  else if !hasApiKey then .rejectedMissingApiKey
  else .invokedGeneration

/-! ## Auxiliary definitions for stating and proving the claims -/

/-- The keyword score a profile assigns to a given archetype. -/
def archetypeScore (data : ExtractedData) : BusinessType → Nat
  | .catalog => catalogScoreOf data
  | .specialist => specialistScoreOf data
  | .ecosystem => ecosystemScoreOf data

/-- Modelled from the claim's wording (not from the source): the local
part of an email address, i.e. everything before the `@`. -/
def claimEmailLocalPart (email : String) : String :=
  String.mk (email.toList.takeWhile (fun c => c != '@'))

/-- Modelled from the claim's wording (not from the source): whether a
string contains one of the four contact-indicating substrings contact /
info / support / sales. -/
def claimContactWordIn (s : String) : Bool :=
  strContainsSub s "contact" || strContainsSub s "info" ||
    strContainsSub s "support" || strContainsSub s "sales"

/-- Stable deduplication in its filtering form: keep the head and
remove its later duplicates before recursing.  Extensionally equal to
`dedupFirst`; this form is convenient for induction proofs. -/
def dedupFilter : List String → List String
  | [] => []
  | x :: xs => x :: dedupFilter (xs.filter (fun y => y != x))
termination_by l => l.length
decreasing_by
  simp only [List.length_cons]
  exact Nat.lt_succ_of_le (List.length_filter_le _ _)

/-- The all-defaults profile, used as a `getD` fallback when naming the
successful result of a concrete pipeline run. -/
def fallbackProfile : ExtractedData := {}

/-- The structured-data record of the spec's Acme example. -/
def acmeRecord : JValue :=
  .obj [("@type", .str "Organization"), ("name", .str "Acme Corp - Official"),
        ("sameAs", .arr [.str "https://facebook.com/acme"])]

/-- The content bundle of the spec's Acme example: the Acme
organization record as structured data plus the meta tag
`og:site_name="Acme"`. -/
def acmeBundle : ScrapedContent :=
  { html := "", textContent := "", metaTags := [("og:site_name", "Acme")],
    jsonLd := [acmeRecord], finalUrl := "https://acme.com" }

/-- A malformed organization record whose `contactPoint` is an empty
list — truthy, so the source dereferences its first element. -/
def emptyContactRecord : JValue :=
  .obj [("@type", .str "Organization"), ("contactPoint", .arr [])]

/-- A well-formed organization record, used after a malformed one to
observe whether processing of remaining records continues. -/
def wellFormedOrgRecord : JValue :=
  .obj [("@type", .str "Organization"), ("name", .str "Acme")]

/-- A record whose `employee` value is a single object rather than a
list (the source spreads it with `...`). -/
def scalarEmployeeRecord : JValue :=
  .obj [("employee", .obj [("name", .str "Jo")])]

/-- A record whose `hasOfferCatalog.itemListElement` is a string rather
than a list (the source calls `.forEach` on it). -/
def stringCatalogRecord : JValue :=
  .obj [("hasOfferCatalog", .obj [("itemListElement", .str "broken")])]

/-- A bundle whose structured data contributes the single service
"Consulting", used to exercise the policy filter on a successful run. -/
def consultingBundle : ScrapedContent :=
  { html := "", textContent := "", metaTags := [],
    jsonLd := [.obj [("@type", .str "Service"),
                     ("hasOfferCatalog", .obj [("itemListElement",
                        .arr [.obj [("name", .str "Consulting")]])])]],
    finalUrl := "https://consulting.example" }

/-- A bundle with no extractable signal at all, used to observe the
placeholder defaults. -/
def emptyBundle : ScrapedContent :=
  { html := "", textContent := "", metaTags := [], jsonLd := [],
    finalUrl := "https://empty.example" }

/-- A profile whose text mentions one catalog keyword and one ecosystem
keyword and no specialist keyword: a two-way tie at the top. -/
def tiedProfile : ExtractedData :=
  { description := some "A marketplace suite" }

/-- A profile whose company name is exactly the placeholder string. -/
def placeholderNameProfile : ExtractedData :=
  { companyName := some "Company Name" }

/-! ## Theorems

Helper lemmas first, then, per claim, the claim theorem (and where
needed its counterexample and witness). -/

theorem filter_swap (p q : String → Bool) (l : List String) :
    (l.filter p).filter q = (l.filter q).filter p := by
  induction l with
  | nil => rfl
  | cons x xs ih =>
      by_cases hp : p x <;> by_cases hq : q x <;>
        simp [List.filter_cons, hp, hq, ih]

theorem filter_idem (p : String → Bool) (l : List String) :
    (l.filter p).filter p = l.filter p :=
  List.filter_eq_self.mpr (fun _ ha => (List.mem_filter.mp ha).2)

theorem mem_of_mem_dedupFilter_aux :
    ∀ (n : Nat) (l : List String), l.length ≤ n →
      ∀ a, a ∈ dedupFilter l → a ∈ l := by
  intro n
  induction n with
  | zero =>
      intro l hl a ha
      match l with
      | [] => simp [dedupFilter] at ha
      | x :: xs => simp at hl
  | succ n ih =>
      intro l hl a ha
      match l with
      | [] => simp [dedupFilter] at ha
      | x :: xs =>
          rw [dedupFilter] at ha
          rcases List.mem_cons.mp ha with h | h
          · exact h ▸ List.mem_cons_self x xs
          · have hlen : (xs.filter (fun y => y != x)).length ≤ n :=
              Nat.le_trans (List.length_filter_le _ _)
                (Nat.le_of_succ_le_succ (by simpa using hl))
            exact List.mem_cons_of_mem x (List.mem_of_mem_filter (ih _ hlen a h))

theorem mem_of_mem_dedupFilter (l : List String) (a : String) :
    a ∈ dedupFilter l → a ∈ l :=
  mem_of_mem_dedupFilter_aux l.length l le_rfl a

theorem dedupFilter_nodup_aux :
    ∀ (n : Nat) (l : List String), l.length ≤ n → (dedupFilter l).Nodup := by
  intro n
  induction n with
  | zero =>
      intro l hl
      match l with
      | [] => simp [dedupFilter]
      | x :: xs => simp at hl
  | succ n ih =>
      intro l hl
      match l with
      | [] => simp [dedupFilter]
      | x :: xs =>
          rw [dedupFilter]
          refine List.nodup_cons.mpr ⟨?_, ?_⟩
          · intro hx
            have := List.mem_filter.mp (mem_of_mem_dedupFilter _ _ hx)
            simp at this
          · exact ih _ (Nat.le_trans (List.length_filter_le _ _)
              (Nat.le_of_succ_le_succ (by simpa using hl)))

theorem dedupFilter_nodup (l : List String) : (dedupFilter l).Nodup :=
  dedupFilter_nodup_aux l.length l le_rfl

theorem dedupFilter_filter_aux :
    ∀ (n : Nat) (l : List String), l.length ≤ n → ∀ (p : String → Bool),
      dedupFilter (l.filter p) = (dedupFilter l).filter p := by
  intro n
  induction n with
  | zero =>
      intro l hl p
      match l with
      | [] => simp [dedupFilter]
      | x :: xs => simp at hl
  | succ n ih =>
      intro l hl p
      match l with
      | [] => simp [dedupFilter]
      | x :: xs =>
          have hxs : xs.length ≤ n := Nat.le_of_succ_le_succ (by simpa using hl)
          by_cases hp : p x
          · rw [List.filter_cons_of_pos hp, dedupFilter, dedupFilter,
                List.filter_cons_of_pos hp]
            rw [filter_swap, ih _ (Nat.le_trans (List.length_filter_le _ _) hxs)]
          · rw [List.filter_cons_of_neg hp, dedupFilter,
                List.filter_cons_of_neg hp]
            rw [← ih _ (Nat.le_trans (List.length_filter_le _ _) hxs), filter_swap]
            congr 1
            symm
            refine List.filter_eq_self.mpr (fun a ha => ?_)
            have hpa := (List.mem_filter.mp ha).2
            simp only [bne_iff_ne]
            rintro rfl
            exact hp hpa

theorem dedupFilter_filter (l : List String) (p : String → Bool) :
    dedupFilter (l.filter p) = (dedupFilter l).filter p :=
  dedupFilter_filter_aux l.length l le_rfl p

theorem dedupFilter_append_aux :
    ∀ (n : Nat) (a : List String), a.length ≤ n → ∀ b : List String,
      dedupFilter (dedupFilter a ++ b) = dedupFilter (a ++ b) := by
  intro n
  induction n with
  | zero =>
      intro a ha b
      match a with
      | [] => rw [dedupFilter]
      | x :: xs => simp at ha
  | succ n ih =>
      intro a ha b
      match a with
      | [] => rw [dedupFilter]
      | x :: xs =>
          have hxs : xs.length ≤ n := Nat.le_of_succ_le_succ (by simpa using ha)
          rw [dedupFilter, List.cons_append, List.cons_append, dedupFilter, dedupFilter]
          congr 1
          rw [List.filter_append, List.filter_append, ← dedupFilter_filter, filter_idem]
          exact ih _ (Nat.le_trans (List.length_filter_le _ _) hxs) _

theorem dedupFilter_append (a b : List String) :
    dedupFilter (dedupFilter a ++ b) = dedupFilter (a ++ b) :=
  dedupFilter_append_aux a.length a le_rfl b

theorem dedupFirstAux_eq_dedupFilter (l : List String) :
    ∀ seen : List String,
      dedupFirstAux seen l = dedupFilter (l.filter (fun y => !seen.contains y)) := by
  induction l with
  | nil => intro seen; rw [dedupFirstAux, List.filter_nil, dedupFilter]
  | cons x xs ih =>
      intro seen
      by_cases hx : x ∈ seen
      · rw [dedupFirstAux, if_pos (by simpa using hx),
            List.filter_cons_of_neg (by simp [hx]), ih]
      · rw [dedupFirstAux, if_neg (by simpa using hx),
            List.filter_cons_of_pos (by simp [hx]), dedupFilter, ih]
        congr 2
        rw [List.filter_filter]
        apply List.filter_congr
        intro a _
        by_cases h1 : a = x <;> by_cases h2 : a ∈ seen <;> simp [h1, h2]

theorem dedupFirst_eq_dedupFilter (l : List String) : dedupFirst l = dedupFilter l := by
  rw [dedupFirst, dedupFirstAux_eq_dedupFilter]
  congr 1
  exact List.filter_eq_self.mpr (fun a _ => rfl)

theorem dedupFirst_append_dedupFirst (a b : List String) :
    dedupFirst (dedupFirst a ++ b) = dedupFirst (a ++ b) := by
  simp only [dedupFirst_eq_dedupFilter, dedupFilter_append]

theorem dedupFirst_nodup (l : List String) : (dedupFirst l).Nodup := by
  rw [dedupFirst_eq_dedupFilter]
  exact dedupFilter_nodup l

theorem dedupFirst_nil : dedupFirst [] = [] := rfl

theorem mergeArray_three (o1 o2 o3 : Option (List String)) :
    mergeArrayField (mergeArrayField (mergeArrayField [] o1) o2) o3
      = dedupFirst (o1.getD [] ++ o2.getD [] ++ o3.getD []) := by
  rcases o1 with _ | v1 <;> rcases o2 with _ | v2 <;> rcases o3 with _ | v3 <;>
    simp [mergeArrayField, dedupFirst_nil, dedupFirst_append_dedupFirst, List.append_assoc]

/-- C7: for every triple of partial profiles merged in the order
structured, meta, text, each array-valued field of the merged output
(services, products, teamInfo) equals the stable first-occurrence
deduplication of the concatenation of the three sources in that order,
and in particular contains no duplicates. -/
theorem c7_merged_arrays_nodup_first_seen (p1 p2 p3 : PartialData) :
    (mergeExtractedData [p1, p2, p3]).services
        = dedupFirst (p1.services.getD [] ++ p2.services.getD [] ++ p3.services.getD []) ∧
      (mergeExtractedData [p1, p2, p3]).services.Nodup ∧
      (mergeExtractedData [p1, p2, p3]).products
        = dedupFirst (p1.products.getD [] ++ p2.products.getD [] ++ p3.products.getD []) ∧
      (mergeExtractedData [p1, p2, p3]).products.Nodup ∧
      (mergeExtractedData [p1, p2, p3]).teamInfo
        = dedupFirst (p1.teamInfo.getD [] ++ p2.teamInfo.getD [] ++ p3.teamInfo.getD []) ∧
      (mergeExtractedData [p1, p2, p3]).teamInfo.Nodup := by
  have hs : (mergeExtractedData [p1, p2, p3]).services
      = mergeArrayField (mergeArrayField (mergeArrayField [] p1.services) p2.services)
          p3.services := rfl
  have hp : (mergeExtractedData [p1, p2, p3]).products
      = mergeArrayField (mergeArrayField (mergeArrayField [] p1.products) p2.products)
          p3.products := rfl
  have ht : (mergeExtractedData [p1, p2, p3]).teamInfo
      = mergeArrayField (mergeArrayField (mergeArrayField [] p1.teamInfo) p2.teamInfo)
          p3.teamInfo := rfl
  refine ⟨?_, ?_, ?_, ?_, ?_, ?_⟩
  · rw [hs, mergeArray_three]
  · rw [hs, mergeArray_three]; exact dedupFirst_nodup _
  · rw [hp, mergeArray_three]
  · rw [hp, mergeArray_three]; exact dedupFirst_nodup _
  · rw [ht, mergeArray_three]
  · rw [ht, mergeArray_three]; exact dedupFirst_nodup _

/-- C4: the quality score is an integer in [0, 100], appending one more
service never decreases it, and it equals the capped sum of the stated
independent contributions (name +10, description +10, +2 per service
capped at +10, +2 per product capped at +10, email +10, phone +5,
address +5, mission +5, team +5, API docs +5, social media +5, any
structured-data records +20). -/
theorem c4_quality_score_bounded_monotone_capped_sum (data : ExtractedData) (s : String) :
    calculateQualityScore data ≤ 100 ∧
    calculateQualityScore data
        ≤ calculateQualityScore { data with services := data.services ++ [s] } ∧
    calculateQualityScore data =
      min ((if truthyOpt data.companyName && data.companyName != some "Company Name"
            then 10 else 0)
        + (if truthyOpt data.description
              && data.description != some "No description available." then 10 else 0)
        + min 10 (2 * data.services.length)
        + min 10 (2 * data.products.length)
        + (if truthyOpt data.contactInfo.email then 10 else 0)
        + (if truthyOpt data.contactInfo.phone then 5 else 0)
        + (if truthyOpt data.contactInfo.address then 5 else 0)
        + (if truthyOpt data.mission then 5 else 0)
        + (if data.teamInfo.length > 0 then 5 else 0)
        + (if truthyOpt data.apiDocs then 5 else 0)
        + (if hasSocialMedia data then 5 else 0)
        + (if hasSchemaData data then 20 else 0)) 100 := by
  have hserv : ∀ n : Nat, (if n > 0 then min 10 (n * 2) else 0) = min 10 (2 * n) := by
    intro n
    match n with
    | 0 => simp
    | m + 1 => rw [if_pos (Nat.succ_pos m), Nat.mul_comm]
  refine ⟨?_, ?_, ?_⟩
  · simp only [calculateQualityScore]
    exact Nat.min_le_right _ _
  · simp only [calculateQualityScore, hasSocialMedia, hasSchemaData, hserv,
      List.length_append, List.length_cons, List.length_nil]
    omega
  · simp only [calculateQualityScore, hasSocialMedia, hasSchemaData, hserv]
    omega

/-- C6 (amended): the classifier is a pure function of the profile
text; the returned archetype always carries the maximal keyword score
(each keyword counting at most once); catalog wins every tie it is
involved in and ecosystem wins its tie with specialist; specialist is
returned exactly when it is the unique strict maximum — so when no
archetype leads outright the tie-break yields catalog (or ecosystem),
never specialist. -/
theorem c6_classifier_max_and_tie_order (data : ExtractedData) :
    archetypeScore data (classifyBusinessType data)
        = max (catalogScoreOf data) (max (specialistScoreOf data) (ecosystemScoreOf data)) ∧
    (catalogScoreOf data ≥ specialistScoreOf data →
      catalogScoreOf data ≥ ecosystemScoreOf data →
      classifyBusinessType data = BusinessType.catalog) ∧
    (classifyBusinessType data = BusinessType.ecosystem →
      ecosystemScoreOf data > catalogScoreOf data ∧
        ecosystemScoreOf data ≥ specialistScoreOf data) ∧
    (classifyBusinessType data = BusinessType.specialist ↔
      specialistScoreOf data > catalogScoreOf data ∧
        specialistScoreOf data > ecosystemScoreOf data) ∧
    (catalogScoreOf data = specialistScoreOf data →
      specialistScoreOf data = ecosystemScoreOf data →
      classifyBusinessType data = BusinessType.catalog) := by
  simp only [classifyBusinessType]
  set c := catalogScoreOf data with hc
  set s := specialistScoreOf data with hs2
  set e := ecosystemScoreOf data with he
  split_ifs with h1 h2
  · obtain ⟨h1a, _⟩ := h1
    refine ⟨?_, fun _ _ => rfl, ?_, ?_, fun _ _ => rfl⟩
    · simp only [archetypeScore, ← hc, ← hs2, ← he]
      omega
    · intro h; simp at h
    · constructor
      · intro h; simp at h
      · rintro ⟨hgt, _⟩; exact absurd h1a (by omega)
  · have h1' : c < s ∨ c < e := by
      rcases not_and_or.mp h1 with h | h
      · exact Or.inl (Nat.lt_of_not_le h)
      · exact Or.inr (Nat.lt_of_not_le h)
    refine ⟨?_, ?_, fun _ => ?_, ?_, ?_⟩
    · simp only [archetypeScore, ← hc, ← hs2, ← he]
      omega
    · intro ha hb; exact absurd (⟨ha, hb⟩ : c ≥ s ∧ c ≥ e) h1
    · constructor <;> omega
    · constructor
      · intro h; simp at h
      · rintro ⟨hgt1, hgt2⟩; exact absurd h2 (by omega)
    · intro hce hse; omega
  · have h1' : c < s ∨ c < e := by
      rcases not_and_or.mp h1 with h | h
      · exact Or.inl (Nat.lt_of_not_le h)
      · exact Or.inr (Nat.lt_of_not_le h)
    have h2' : e < s := Nat.lt_of_not_le h2
    refine ⟨?_, ?_, ?_, ?_, ?_⟩
    · simp only [archetypeScore, ← hc, ← hs2, ← he]
      omega
    · intro ha hb; omega
    · intro h; simp at h
    · simp only [true_iff]
      omega
    · intro hce hse; omega

/-- C6 counterexample: on a profile matching no keyword at all — no
archetype leads outright — the classifier returns catalog, not the
claimed specialist default. -/
theorem c6_no_lead_yields_catalog_counterexample :
    catalogScoreOf {} = 0 ∧ specialistScoreOf {} = 0 ∧ ecosystemScoreOf {} = 0 ∧
    classifyBusinessType {} = BusinessType.catalog ∧
    classifyBusinessType {} ≠ BusinessType.specialist :=
  ⟨rfl, rfl, rfl, rfl, by decide⟩

/-- C6 witness: on a profile with a catalog/ecosystem tie at the top
the tie-break conjunct of the amended theorem yields catalog. -/
theorem c6_classifier_max_and_tie_order_witness :
    classifyBusinessType tiedProfile = BusinessType.catalog ∧
    catalogScoreOf tiedProfile = ecosystemScoreOf tiedProfile :=
  ⟨(c6_classifier_max_and_tie_order tiedProfile).2.1 (by decide) (by decide), by decide⟩

theorem walkPlatforms_eq_find (url : String) :
    ∀ l : List (String × String),
      identifySocialPlatform.walkPlatforms url l
        = (l.find? (fun e => strContainsSub url e.1)).map (fun e => e.2) := by
  intro l
  induction l with
  | nil => rfl
  | cons x xs ih =>
      obtain ⟨d, p⟩ := x
      rw [identifySocialPlatform.walkPlatforms]
      by_cases h : strContainsSub url d
      · rw [if_pos h]
        simp [List.find?_cons, h]
      · rw [if_neg h, ih]
        simp [List.find?_cons, h]

/-- C10: `identifySocialPlatform` matches by substring containment over
the whole URL string, walking the domain table in its fixed order and
returning the platform of the first contained domain (none when no
domain is contained); in particular a URL whose host is not a social
platform but contains "x.com" as a substring is assigned twitter. -/
theorem c10_social_platform_substring_first_match :
    (∀ url : String, identifySocialPlatform url
        = (socialPlatforms.find? (fun e => strContainsSub url e.1)).map (fun e => e.2)) ∧
    identifySocialPlatform "https://mybox.com/shop" = some "twitter" ∧
    identifySocialPlatform "https://example.org/page" = none :=
  ⟨fun url => walkPlatforms_eq_find url socialPlatforms, by decide, by decide⟩

theorem clean_services_not_excluded (x : ExtractedData) :
    ∀ s ∈ (cleanExtractedData x).services, containsExcludedContent s = false := by
  intro s hs
  have := (List.mem_filter.mp hs).2
  simpa using this

theorem clean_products_not_excluded (x : ExtractedData) :
    ∀ p ∈ (cleanExtractedData x).products, containsExcludedContent p = false := by
  intro p hp
  have := (List.mem_filter.mp hp).2
  simpa using this

/-- C3: every service and product string in the profile returned by a
successful `extractData` run fails the denylist test, whatever the
content bundle (the filter is re-applied at merge time); and the
denylist filter maps ["Consulting", "Pricing Plans", "Support"] to
["Consulting", "Support"]. -/
theorem c3_final_output_policy_filtered :
    (∀ (sc : ScrapedContent) (d : ExtractedData), extractData sc = Except.ok d →
      (∀ s ∈ d.services, containsExcludedContent s = false) ∧
      (∀ p ∈ d.products, containsExcludedContent p = false)) ∧
    (["Consulting", "Pricing Plans", "Support"].filter (fun s => !containsExcludedContent s)
      = ["Consulting", "Support"]) := by
  constructor
  · intro sc d h
    unfold extractData at h
    cases hsd : extractFromStructuredData sc.jsonLd with
    | error e => rw [hsd] at h; simp [Bind.bind, Except.bind] at h
    | ok sd =>
        rw [hsd] at h
        simp only [Bind.bind, Except.bind, pure, Except.pure, Except.ok.injEq] at h
        subst h
        exact ⟨clean_services_not_excluded _, clean_products_not_excluded _⟩
  · decide

/-- C3 witness: a concrete successful run that extracts the service
"Consulting", on which the theorem applies. -/
theorem c3_final_output_policy_filtered_witness :
    containsExcludedContent "Consulting" = false :=
  (c3_final_output_policy_filtered.1 consultingBundle
    ((extractData consultingBundle).toOption.getD fallbackProfile) rfl).1
    "Consulting" (by decide)

/-- C9: a successful `extractData` run always returns a set, non-empty
company name and description; the cleaner substitutes the exact
placeholder strings when nothing was contributed; and the scorer awards
the corresponding +10 only when the field differs from the placeholder,
the placeholder contributing exactly 0. -/
theorem c9_placeholder_defaults_and_zero_contribution :
    (∀ (sc : ScrapedContent) (d : ExtractedData), extractData sc = Except.ok d →
      d.companyName.getD "" ≠ "" ∧ d.description.getD "" ≠ "") ∧
    (∀ x : ExtractedData, x.companyName = none →
      (cleanExtractedData x).companyName = some "Company Name") ∧
    (∀ x : ExtractedData, x.description = none →
      (cleanExtractedData x).description = some "No description available.") ∧
    (∀ x : ExtractedData, x.companyName = some "Company Name" →
      calculateQualityScore x = calculateQualityScore { x with companyName := none }) ∧
    (∀ x : ExtractedData, x.description = some "No description available." →
      calculateQualityScore x = calculateQualityScore { x with description := none }) := by
  refine ⟨?_, ?_, ?_, ?_, ?_⟩
  · intro sc d h
    unfold extractData at h
    cases hsd : extractFromStructuredData sc.jsonLd with
    | error e => rw [hsd] at h; simp [Bind.bind, Except.bind] at h
    | ok sd =>
        rw [hsd] at h
        simp only [Bind.bind, Except.bind, pure, Except.pure, Except.ok.injEq] at h
        subst h
        constructor
        · simp only [cleanExtractedData]
          rcases hx : (mergeExtractedData
              [sd, extractFromMetaTags sc.metaTags,
               extractFromContent sc.textContent sc.html]).companyName with _ | s
          · simp
          · by_cases hs : s = "" <;> simp [hs]
        · simp only [cleanExtractedData]
          rcases hx : (mergeExtractedData
              [sd, extractFromMetaTags sc.metaTags,
               extractFromContent sc.textContent sc.html]).description with _ | s
          · simp
          · by_cases hs : s = "" <;> simp [hs]
  · intro x h; simp [cleanExtractedData, h]
  · intro x h; simp [cleanExtractedData, h]
  · intro x h
    simp [calculateQualityScore, hasSocialMedia, hasSchemaData, h, truthyOpt]
  · intro x h
    simp [calculateQualityScore, hasSocialMedia, hasSchemaData, h, truthyOpt]

/-- C9 witness: the empty bundle yields the non-empty placeholder name;
the cleaner fills the placeholder on an empty profile; the placeholder
name contributes 0 to the score. -/
theorem c9_placeholder_defaults_and_zero_contribution_witness :
    ((extractData emptyBundle).toOption.getD fallbackProfile).companyName.getD "" ≠ "" ∧
    (cleanExtractedData fallbackProfile).companyName = some "Company Name" ∧
    calculateQualityScore placeholderNameProfile
      = calculateQualityScore { placeholderNameProfile with companyName := none } :=
  ⟨(c9_placeholder_defaults_and_zero_contribution.1 emptyBundle
      ((extractData emptyBundle).toOption.getD fallbackProfile) rfl).1,
   c9_placeholder_defaults_and_zero_contribution.2.1 fallbackProfile rfl,
   c9_placeholder_defaults_and_zero_contribution.2.2.2.1 placeholderNameProfile rfl⟩

theorem filter_head_structure (p : String → Bool) :
    ∀ (l : List String) (e : String), (l.filter p).head? = some e →
      p e = true ∧ ∃ pre post, l = pre ++ e :: post ∧ ∀ x ∈ pre, p x = false := by
  intro l
  induction l with
  | nil => intro e h; simp at h
  | cons x xs ih =>
      intro e h
      by_cases hp : p x
      · rw [List.filter_cons_of_pos hp] at h
        rw [List.head?_cons, Option.some.injEq] at h
        subst h
        exact ⟨hp, [], xs, rfl, by simp⟩
      · rw [List.filter_cons_of_neg hp] at h
        obtain ⟨hpe, pre, post, heq, hpre⟩ := ih e h
        refine ⟨hpe, x :: pre, post, by simp [heq], ?_⟩
        intro y hy
        rcases List.mem_cons.mp hy with rfl | hy
        · simpa using hp
        · exact hpre y hy

/-- C8 (amended): when the text extractor sets a contact email, that
email is the first email-shaped token of the text surviving the
source's filter, which tests the webmail exclusions and the four
contact-indicating substrings against the WHOLE address string, not
only the local part. -/
theorem c8_email_filter_whole_address (textContent html e : String)
    (h : (extractFromContent textContent html).contactInfo.bind ContactInfo.email = some e) :
    emailFilterKeep e = true ∧
    ∃ pre post, emailMatches textContent = pre ++ e :: post ∧
      ∀ x ∈ pre, emailFilterKeep x = false := by
  have h' : ((emailMatches textContent).filter emailFilterKeep).head? = some e := by
    simpa [extractFromContent, Option.bind] using h
  obtain ⟨hk, pre, post, heq, hpre⟩ := filter_head_structure emailFilterKeep _ e h'
  exact ⟨hk, pre, post, heq, hpre⟩

/-- C8 witness: on a text containing the single address
"info@acme.com" the amended theorem applies with that address. -/
theorem c8_email_filter_whole_address_witness :
    emailFilterKeep "info@acme.com" = true ∧
    ∃ pre post, emailMatches "Write info@acme.com today" = pre ++ "info@acme.com" :: post ∧
      ∀ x ∈ pre, emailFilterKeep x = false :=
  c8_email_filter_whole_address "Write info@acme.com today" "" "info@acme.com" (by decide)

/-- C8 counterexample: the text extractor selects
"bob@supportive.com", whose local part "bob" contains none of contact /
info / support / sales — the keyword occurs only in the domain — so the
claim's local-part rule is false of the code. -/
theorem c8_email_selected_without_contact_local_part :
    ((extractFromContent "Reach us: bob@supportive.com today." "").contactInfo).map
        (fun ci => ci.email) = some (some "bob@supportive.com") ∧
    claimEmailLocalPart "bob@supportive.com" = "bob" ∧
    claimContactWordIn (claimEmailLocalPart "bob@supportive.com") = false :=
  ⟨rfl, rfl, by decide⟩

/-- C1 (code-bug evidence): on the spec's own Acme example the
structured extractor sets companyName = "Acme Corp - Official", yet the
merged pipeline output carries the meta-tag value "Acme" — the merge
loop lets later (less reliable) sources overwrite scalar fields,
contradicting the claim and the source's own comments.  The
social-media half of the example behaves as claimed. -/
theorem c1_meta_overwrites_structured_company_name :
    (extractFromStructuredData acmeBundle.jsonLd).map PartialData.companyName
        = Except.ok (some "Acme Corp - Official") ∧
    (extractData acmeBundle).map ExtractedData.companyName = Except.ok (some "Acme") ∧
    (extractData acmeBundle).map (fun d => d.contactInfo.socialMedia)
        = Except.ok (some [("facebook", "https://facebook.com/acme")]) :=
  ⟨rfl, rfl, rfl⟩

/-- C2 (code-bug evidence): the structured-data extractor throws on the
claim's own malformed shapes — an empty contactPoint list, a non-list
employee value, a non-list itemListElement — aborting the remaining
records, while a well-formed record alone succeeds. -/
theorem c2_structured_extractor_throws_on_malformed :
    (extractFromStructuredData [emptyContactRecord]).isOk = false ∧
    (extractFromStructuredData [emptyContactRecord, wellFormedOrgRecord]).isOk = false ∧
    (extractFromStructuredData [scalarEmployeeRecord]).isOk = false ∧
    (extractFromStructuredData [stringCatalogRecord]).isOk = false ∧
    (extractFromStructuredData [wellFormedOrgRecord]).isOk = true :=
  ⟨rfl, rfl, rfl, rfl, rfl⟩

/-- C5 (code-bug evidence): a request with quality score 0 — below 20,
and reachable, since the empty profile scores 0 — is NOT rejected by
the generate route's guard (`qualityScore && qualityScore < 20` is
falsy at 0) and generation is invoked, while nonzero scores below 20
are rejected. -/
theorem c5_zero_score_passes_generation_gate :
    lowQualityGateTriggers (some 0) = false ∧
    generatePostGate true (some 0) = GenerateStep.invokedGeneration ∧
    (0 : Nat) < 20 ∧
    generatePostGate true (some 10) = GenerateStep.rejectedInsufficientData ∧
    generatePostGate true (some 19) = GenerateStep.rejectedInsufficientData ∧
    generatePostGate true (some 20) = GenerateStep.invokedGeneration ∧
    calculateQualityScore fallbackProfile = 0 :=
  ⟨rfl, rfl, by decide, rfl, rfl, rfl, rfl⟩

end LlmsTextMaker


